import Mathlib

/-!
Verification of the substation-monitor store (src/static/db.js) and
replication coordinator (src/static/sync.js) against their specification.

The embedding models the IndexedDB-backed store as a record of four
collections, each with the per-store auto-increment key generator that
IndexedDB maintains (a `clear()` does not reset the generator, and keys
start at 1).  Timestamps (`new Date().toISOString()`) are modelled as
abstract `Nat` clock values passed in by the caller; comparison of ISO
strings coincides with comparison of the instants they denote.  A
transaction is modelled by building the final state from a working copy
and discarding the copy on failure: a failed request whose error is not
defaulted aborts the IndexedDB transaction, rolling back every write made
inside it, including the initial clears.
-/

namespace SubstationMonitor

/-- `DB_VERSION` from db.js. -/
def DB_VERSION : Nat := 1

/-- A row of the `substations` object store (keyPath `id`, autoIncrement,
unique index on `name`). -/
structure Substation where
  id : Nat
  name : String
  createdAt : Nat
deriving DecidableEq, Repr

/-- A row of the `machines` object store (keyPath `id`, autoIncrement,
non-unique indices on `substationId` and `updatedAt`). -/
structure Machine where
  id : Nat
  substationId : Nat
  positionX : Int
  positionY : Int
  name : String
  info : String
  imageId : Option Nat
  createdAt : Nat
  updatedAt : Nat
deriving DecidableEq, Repr

/-- A row of the `images` object store.  `machineId` is `none` when the
source stored the JavaScript value `undefined` there. -/
structure ImageRecord where
  id : Nat
  machineId : Option Nat
  data : String
  timestamp : Nat
deriving DecidableEq, Repr

/-- A row of the `syncRecords` object store. -/
structure SyncRecord where
  id : Nat
  type : String
  data : String
  timestamp : Nat
deriving DecidableEq, Repr

/-- The whole IndexedDB database `SubstationMonitorDB`: the four object
stores together with each store's auto-increment key generator. -/
structure DB where
  substations : List Substation
  machines : List Machine
  images : List ImageRecord
  syncRecords : List SyncRecord
  nextSubstationId : Nat
  nextMachineId : Nat
  nextImageId : Nat
  nextSyncId : Nat
deriving DecidableEq, Repr

/-- A freshly created database: empty stores, key generators at 1. -/
def dbEmpty : DB :=
  { substations := [], machines := [], images := [], syncRecords := [],
    nextSubstationId := 1, nextMachineId := 1, nextImageId := 1, nextSyncId := 1 }

/-- The store-level errors that the modelled operations can produce.
`duplicateName` is the `ConstraintError` raised by the unique `name`
index of the `substations` store (db.js surfaces it as the message
"变电站名称已存在"). -/
inductive DbError where
  | duplicateName
deriving DecidableEq, Repr

/-- The whitespace set of JavaScript's `String.prototype.trim`
(ASCII whitespace plus NBSP, BOM and the line/paragraph separators). -/
def isJsWhitespace (c : Char) : Bool :=
  c = ' ' || c = '\t' || c = '\n' || c = '\r' || c.toNat = 11 || c.toNat = 12 ||
  c.toNat = 160 || c.toNat = 0xFEFF || c.toNat = 0x2028 || c.toNat = 0x2029

/-- JavaScript `name.trim()`. -/
def jsTrim (s : String) : String :=
  String.mk (((s.data.dropWhile isJsWhitespace).reverse.dropWhile isJsWhitespace).reverse)

/-- db.js `getAllSubstations`: `getAll` on the `substations` store. -/
def getAllSubstations (db : DB) : List Substation :=
  db.substations

/-- db.js `addSubstation(name)`: inserts `{name: name.trim(), createdAt}`;
the unique index on `name` rejects the insert with a `ConstraintError`
when another row already carries the same stored name. -/
def addSubstation (name : String) (now : Nat) (db : DB) :
    Except DbError (Substation × DB) :=
  let sub : Substation := { id := db.nextSubstationId, name := jsTrim name, createdAt := now }
  if db.substations.any (fun s => s.name = sub.name) then
    .error .duplicateName
  else
    .ok (sub, { db with substations := db.substations ++ [sub],
                        nextSubstationId := db.nextSubstationId + 1 })

/-- db.js `getMachinesBySubstationId`: `getAll` on the `substationId` index. -/
def getMachinesBySubstationId (substationId : Nat) (db : DB) : List Machine :=
  db.machines.filter (fun m => m.substationId = substationId)

/-- db.js `getMachineByPosition`: linear `find` over the machines of the
substation. -/
def getMachineByPosition (substationId : Nat) (positionX positionY : Int) (db : DB) :
    Option Machine :=
  (getMachinesBySubstationId substationId db).find?
    (fun m => m.positionX = positionX ∧ m.positionY = positionY)

/-- IndexedDB `put` on the `machines` store: replaces the row with the same
key, inserting (and bumping the key generator past the explicit key) when
no row has it. -/
def putMachine (row : Machine) (db : DB) : DB :=
  if db.machines.any (fun m => m.id = row.id) then
    { db with machines := db.machines.map (fun m => if m.id = row.id then row else m) }
  else
    { db with machines := db.machines ++ [row],
              nextMachineId := max db.nextMachineId (row.id + 1) }

/-- db.js `saveMachine(substationId, positionX, positionY, name, info,
imageData)`.  The source issues the image `add` first (when a blob is
supplied), giving the image row the id of the machine found by the
position lookup as `machineId` (`existingMachine?.id`, i.e. `undefined`
for a new machine).  It then builds `machineData` synchronously — before
the image request's success callback has run — so the `imageId` field it
stores and returns is still the initial `null`. -/
def saveMachine (substationId : Nat) (positionX positionY : Int)
    (name info : Option String) (imageData : Option String) (now : Nat) (db : DB) :
    Machine × DB :=
  let existingMachine := getMachineByPosition substationId positionX positionY db
  let db1 := match imageData with
    | some blob =>
        { db with
          images := db.images ++ [{ id := db.nextImageId,
                                    machineId := existingMachine.map (fun m => m.id),
                                    data := blob, timestamp := now }],
          nextImageId := db.nextImageId + 1 }
    | none => db
  match existingMachine with
  | some m =>
      let row : Machine :=
        { id := m.id, substationId := substationId,
          positionX := positionX, positionY := positionY,
          name := name.getD "", info := info.getD "",
          imageId := none, createdAt := m.createdAt, updatedAt := now }
      (row, putMachine row db1)
  | none =>
      let row : Machine :=
        { id := db1.nextMachineId, substationId := substationId,
          positionX := positionX, positionY := positionY,
          name := name.getD "", info := info.getD "",
          imageId := none, createdAt := now, updatedAt := now }
      (row, { db1 with machines := db1.machines ++ [row],
                       nextMachineId := db1.nextMachineId + 1 })

/-- db.js `deleteMachine(machineId)`: reads the machine, deletes its
referenced image row (if the machine exists and carries an `imageId`),
then deletes the machine row. -/
def deleteMachine (machineId : Nat) (db : DB) : DB :=
  let db1 := match db.machines.find? (fun m => m.id = machineId) with
    | some m =>
        match m.imageId with
        | some i => { db with images := db.images.filter (fun img => img.id ≠ i) }
        | none => db
    | none => db
  { db1 with machines := db1.machines.filter (fun m => m.id ≠ machineId) }

/-- db.js `deleteMachinesBySubstationId`: fetches the substation's machines
once, then deletes each by id. -/
def deleteMachinesBySubstationId (substationId : Nat) (db : DB) : DB :=
  (getMachinesBySubstationId substationId db).foldl (fun w m => deleteMachine m.id w) db

/-- db.js `deleteSubstation(id)`: first deletes every machine of the
substation (cascading to their images), then deletes the substation row. -/
def deleteSubstation (id : Nat) (db : DB) : DB :=
  let db1 := deleteMachinesBySubstationId id db
  { db1 with substations := db1.substations.filter (fun s => s.id ≠ id) }

/-- db.js `getAllSyncRecords`. -/
def getAllSyncRecords (db : DB) : List SyncRecord :=
  db.syncRecords

/-- The export payload of db.js `exportAllData`. -/
structure Snapshot where
  version : Nat
  exportDate : Nat
  substations : List Substation
  machines : List Machine
deriving DecidableEq, Repr

/-- db.js `exportAllData`: reads all substations, then gathers the
machines substation by substation via the `substationId` index. -/
def exportAllData (now : Nat) (db : DB) : Snapshot :=
  { version := DB_VERSION, exportDate := now,
    substations := getAllSubstations db,
    machines := (getAllSubstations db).flatMap
      (fun s => getMachinesBySubstationId s.id db) }

/-- The three `clear()` calls that open db.js `importData`'s transaction:
they empty `substations`, `machines` and `images` but, per IndexedDB,
leave every key generator (and the `syncRecords` store) untouched. -/
def clearDataStores (db : DB) : DB :=
  { db with substations := [], machines := [], images := [] }

/-- One substation insert inside `importData`: the snapshot row with its
`id` stripped, re-keyed by the generator; the unique `name` index can
reject it. -/
def addSubstationRow (w : DB) (s : Substation) : Except DbError DB :=
  if w.substations.any (fun t => t.name = s.name) then
    .error .duplicateName
  else
    .ok { w with substations := w.substations ++ [{ s with id := w.nextSubstationId }],
                 nextSubstationId := w.nextSubstationId + 1 }

/-- The substation-import loop of `importData`: inserts in snapshot order,
stopping at (and propagating) the first failed request. -/
def importSubstations : List Substation → DB → Except DbError DB
  | [], w => .ok w
  | s :: rest, w =>
      match addSubstationRow w s with
      | .error e => .error e
      | .ok w1 => importSubstations rest w1

/-- One machine insert inside `importData`: the snapshot row with its `id`
stripped and re-keyed; every other field — `substationId` and `imageId`
included — is copied verbatim.  The `machines` store has no unique index,
so the insert always succeeds. -/
def addMachineRow (w : DB) (m : Machine) : DB :=
  { w with machines := w.machines ++ [{ m with id := w.nextMachineId }],
           nextMachineId := w.nextMachineId + 1 }

/-- The machine-import loop of `importData`. -/
def importMachines : List Machine → DB → DB
  | [], w => w
  | m :: rest, w => importMachines rest (addMachineRow w m)

/-- db.js `importData(data)`: one readwrite transaction over
`substations`, `machines` and `images` that clears the three stores and
re-inserts every snapshot row with identifiers stripped.  A failed insert
aborts the transaction, rolling back every write made inside it (the
clears included), so on failure the database is returned unchanged. -/
def importData (snap : Snapshot) (db : DB) : Except DbError Unit × DB :=
  match importSubstations snap.substations (clearDataStores db) with
  | .error e => (.error e, db)
  | .ok w1 => (.ok (), importMachines snap.machines w1)

/-!
The replication coordinator of src/static/sync.js.  Effects that leave the
process (data-channel sends, `BroadcastChannel` posts, status callbacks)
are modelled as a list of emitted `OutMsg` values; the WebRTC negotiation
itself (offer/answer/candidate plumbing) is delegated to the transport
layer and not modelled.
-/

/-- The `readyState` of an `RTCDataChannel`. -/
inductive ChannelState where
  | connecting
  | opened
  | closing
  | closed
deriving DecidableEq, Repr

/-- One `SyncConnection` from sync.js: its peer id, initiator flag, the
`connected` flag maintained by the channel's onopen/onclose handlers, and
the data channel (absent until one is created or received). -/
structure SyncConnection where
  peerId : String
  isInitiator : Bool
  connected : Bool
  dataChannel : Option ChannelState
deriving DecidableEq, Repr

/-- The `SyncConnection` constructor: `connected` starts false; an
initiator creates its data channel at once (still connecting), a
responder waits for the `ondatachannel` event. -/
def SyncConnection.create (peerId : String) (isInitiator : Bool) : SyncConnection :=
  { peerId := peerId, isInitiator := isInitiator, connected := false,
    dataChannel := if isInitiator then some ChannelState.connecting else none }

/-- A message of the peer protocol, as sent over a data channel. -/
inductive WireMsg where
  | syncData (data : Snapshot)
  | syncRequest
  | ping
  | pong
deriving DecidableEq, Repr

/-- The status values passed to `onStatusChange`. -/
inductive SyncStatus where
  | ready
  | hosting
  | connecting
  | connected
  | disconnected
deriving DecidableEq, Repr

/-- An externally observable effect of the sync module. -/
inductive OutMsg where
  | busBroadcast (data : Snapshot)
  | channelSend (peerId : String) (msg : WireMsg)
  | status (st : SyncStatus)
deriving DecidableEq, Repr

/-- The module-level mutable state of sync.js: `isHosting`, `isConnected`,
the `syncClients` array, and whether `localSyncManager` is non-null. -/
structure SyncState where
  isHosting : Bool
  isConnected : Bool
  syncClients : List SyncConnection
  localSyncManager : Bool
deriving DecidableEq, Repr

/-- The state after sync.js's module initialisation. -/
def initialSyncState : SyncState :=
  { isHosting := false, isConnected := false, syncClients := [], localSyncManager := false }

/-- sync.js `SyncConnection.send`: serialises and sends only when a data
channel exists and its `readyState` is `open`; otherwise the message is
dropped with no further effect. -/
def SyncConnection.send (c : SyncConnection) (m : WireMsg) : SyncConnection × List OutMsg :=
  match c.dataChannel with
  | some ChannelState.opened => (c, [OutMsg.channelSend c.peerId m])
  | _ => (c, [])

/-- sync.js `startBroadcast`: a no-op while already hosting; otherwise
creates the `LocalSyncManager`, sets both role flags, and reports the
`hosting` status. -/
def startBroadcast (st : SyncState) : SyncState × List OutMsg :=
  if st.isHosting then (st, [])
  else
    ({ st with isHosting := true, isConnected := true, localSyncManager := true },
     [OutMsg.status SyncStatus.hosting])

/-- sync.js `stopBroadcast`: closes the `LocalSyncManager`, clears both
role flags, and reports `disconnected`. -/
def stopBroadcast (st : SyncState) : SyncState × List OutMsg :=
  ({ st with isHosting := false, isConnected := false, localSyncManager := false },
   [OutMsg.status SyncStatus.disconnected])

/-- sync.js `requestSyncFrom(hostIp, hostPort)`: refused (returns false,
with no other effect) while hosting; otherwise creates an initiating
`SyncConnection`, appends it to `syncClients`, sets `isConnected`, and
reports the `connecting` status. -/
def requestSyncFrom (hostIp : String) (st : SyncState) :
    Bool × SyncState × List OutMsg :=
  if st.isHosting then (false, st, [])
  else
    (true,
     { st with syncClients := st.syncClients ++ [SyncConnection.create hostIp true],
               isConnected := true },
     [OutMsg.status SyncStatus.connecting])

/-- sync.js `performSync`: returns false (sending nothing) when neither
connected nor hosting; otherwise exports the snapshot once, broadcasts it
on the `LocalSyncManager` channel when hosting with a live manager, and
offers it to every `syncClients` entry whose `connected` flag is set
(each such send still passing through `SyncConnection.send`'s channel
check). -/
def performSync (db : DB) (now : Nat) (st : SyncState) : Bool × List OutMsg :=
  if !st.isConnected && !st.isHosting then (false, [])
  else
    let data := exportAllData now db
    let hostMsgs :=
      if st.isHosting && st.localSyncManager then [OutMsg.busBroadcast data] else []
    let clientMsgs := st.syncClients.flatMap
      (fun c => if c.connected then (c.send (WireMsg.syncData data)).2 else [])
    (true, hostMsgs ++ clientMsgs)

/-!
Identity-free views of the rows, used to state "set-equal ignoring the
reassigned identifiers", and characterisations of the import loops.
-/

/-- A substation row without its store-assigned key. -/
def Substation.core (s : Substation) : String × Nat :=
  (s.name, s.createdAt)

/-- A machine row without its store-assigned key. -/
structure MachineCore where
  substationId : Nat
  positionX : Int
  positionY : Int
  name : String
  info : String
  imageId : Option Nat
  createdAt : Nat
  updatedAt : Nat
deriving DecidableEq, Repr

/-- Forget a machine's store-assigned key. -/
def Machine.core (m : Machine) : MachineCore :=
  { substationId := m.substationId, positionX := m.positionX, positionY := m.positionY,
    name := m.name, info := m.info, imageId := m.imageId,
    createdAt := m.createdAt, updatedAt := m.updatedAt }

/-- The keys handed out by the substations key generator, starting at `k`. -/
def assignSubIds (k : Nat) : List Substation → List Substation
  | [] => []
  | s :: rest => { s with id := k } :: assignSubIds (k + 1) rest

/-- The keys handed out by the machines key generator, starting at `k`. -/
def assignMachineIds (k : Nat) : List Machine → List Machine
  | [] => []
  | m :: rest => { m with id := k } :: assignMachineIds (k + 1) rest

theorem assignSubIds_map_core (k : Nat) (l : List Substation) :
    (assignSubIds k l).map Substation.core = l.map Substation.core := by
  induction l generalizing k with
  | nil => rfl
  | cons s rest ih => simp [assignSubIds, Substation.core, ih]

theorem assignMachineIds_map_core (k : Nat) (l : List Machine) :
    (assignMachineIds k l).map Machine.core = l.map Machine.core := by
  induction l generalizing k with
  | nil => rfl
  | cons m rest ih => simp [assignMachineIds, Machine.core, ih]

theorem importSubstations_ok (l : List Substation) : ∀ (w w' : DB),
    importSubstations l w = .ok w' →
    w'.substations = w.substations ++ assignSubIds w.nextSubstationId l ∧
    w'.machines = w.machines ∧ w'.images = w.images ∧
    w'.syncRecords = w.syncRecords ∧ w'.nextMachineId = w.nextMachineId := by
  induction l with
  | nil =>
      intro w w' h
      simp only [importSubstations, Except.ok.injEq] at h
      subst h
      simp [assignSubIds]
  | cons s rest ih =>
      intro w w' h
      simp only [importSubstations] at h
      cases hadd : addSubstationRow w s with
      | error e => rw [hadd] at h; exact absurd h (by simp)
      | ok w1 =>
          rw [hadd] at h
          obtain ⟨h1, h2, h3, h4, h5⟩ := ih w1 w' h
          unfold addSubstationRow at hadd
          split at hadd
          · exact absurd hadd (by simp)
          · simp only [Except.ok.injEq] at hadd
            subst hadd
            refine ⟨?_, h2, h3, h4, h5⟩
            simp [h1, assignSubIds, List.append_assoc]

theorem importMachines_spec (l : List Machine) : ∀ (w : DB),
    (importMachines l w).substations = w.substations ∧
    (importMachines l w).machines = w.machines ++ assignMachineIds w.nextMachineId l ∧
    (importMachines l w).images = w.images ∧
    (importMachines l w).syncRecords = w.syncRecords := by
  induction l with
  | nil => intro w; simp [importMachines, assignMachineIds]
  | cons m rest ih =>
      intro w
      obtain ⟨h1, h2, h3, h4⟩ := ih (addMachineRow w m)
      refine ⟨?_, ?_, ?_, ?_⟩
      · simpa [importMachines, addMachineRow] using h1
      · simp only [importMachines]
        rw [h2]
        simp [addMachineRow, assignMachineIds, List.append_assoc]
      · simpa [importMachines, addMachineRow] using h3
      · simpa [importMachines, addMachineRow] using h4

/-- Claim C2: `importSnapshot` is atomic — when any insert inside its
transaction fails, the operation fails with the insert's error,
the transaction (clears included) is rolled back, and `listSites()` and
`listDevices(_)` afterwards equal their pre-import values. -/
theorem importData_failure_rolls_back (snap : Snapshot) (db : DB) (e : DbError)
    (h : importSubstations snap.substations (clearDataStores db) = .error e) :
    importData snap db = (.error e, db) ∧
    getAllSubstations (importData snap db).2 = getAllSubstations db ∧
    ∀ sid, getMachinesBySubstationId sid (importData snap db).2 =
      getMachinesBySubstationId sid db := by
  have h2 : importData snap db = (.error e, db) := by
    unfold importData
    rw [h]
  exact ⟨h2, by rw [h2], fun sid => by rw [h2]⟩

/-- Database used to exercise the import-failure rollback: it already
holds a site and a device that must survive the failed import. -/
def dbC2 : DB :=
  { substations := [{ id := 1, name := "East", createdAt := 1 }],
    machines := [{ id := 1, substationId := 1, positionX := 0, positionY := 0,
                   name := "breaker", info := "", imageId := none,
                   createdAt := 2, updatedAt := 2 }],
    images := [], syncRecords := [],
    nextSubstationId := 2, nextMachineId := 2, nextImageId := 1, nextSyncId := 1 }

/-- A malformed snapshot: two sites with the same name, so the second
insert violates the unique name index mid-import. -/
def snapC2 : Snapshot :=
  { version := 1, exportDate := 3,
    substations := [{ id := 7, name := "North", createdAt := 0 },
                    { id := 8, name := "North", createdAt := 0 }],
    machines := [] }

theorem importData_failure_rolls_back_witness :
    importSubstations snapC2.substations (clearDataStores dbC2) =
      .error .duplicateName ∧
    (importData snapC2 dbC2 = (.error .duplicateName, dbC2) ∧
     getAllSubstations (importData snapC2 dbC2).2 = getAllSubstations dbC2 ∧
     ∀ sid, getMachinesBySubstationId sid (importData snapC2 dbC2).2 =
       getMachinesBySubstationId sid dbC2) :=
  ⟨by rfl, importData_failure_rolls_back snapC2 dbC2 .duplicateName (by rfl)⟩

/-- Claim C10: the import transaction spans only the site, device and
image collections — the sync-log after `importData`, whether the import
succeeds or fails, equals the sync-log before it. -/
theorem importData_preserves_syncRecords (snap : Snapshot) (db : DB) :
    getAllSyncRecords (importData snap db).2 = getAllSyncRecords db := by
  unfold importData
  cases h : importSubstations snap.substations (clearDataStores db) with
  | error e => simp [getAllSyncRecords]
  | ok w1 =>
      obtain ⟨-, -, -, h4, -⟩ := importSubstations_ok _ _ _ h
      have h5 := (importMachines_spec snap.machines w1).2.2.2
      simp only [getAllSyncRecords] at *
      simp [h5, h4, clearDataStores, getAllSyncRecords]

/-- Claim C9: sending on a session whose channel is not `OPEN` is a
silent no-op — the message is dropped, no effect is emitted, and the
session (and, the store not being touched at all by `send`, the store)
is unchanged. -/
theorem send_drops_when_channel_not_open (c : SyncConnection) (m : WireMsg)
    (h : c.dataChannel ≠ some ChannelState.opened) :
    c.send m = (c, []) := by
  cases hd : c.dataChannel with
  | none => simp [SyncConnection.send, hd]
  | some s =>
      cases s
      case opened => exact absurd hd h
      all_goals simp [SyncConnection.send, hd]

theorem send_drops_when_channel_not_open_witness :
    (SyncConnection.create "10.0.0.2" false).dataChannel ≠
      some ChannelState.opened ∧
    (SyncConnection.create "10.0.0.2" false).send WireMsg.ping =
      (SyncConnection.create "10.0.0.2" false, []) :=
  ⟨by decide, send_drops_when_channel_not_open _ _ (by decide)⟩

/-- Claim C7: `connectTo` (sync.js `requestSyncFrom`) while hosting is
refused — it returns the failure value, creates no session, emits no
status change, and leaves the coordinator state untouched. -/
theorem requestSyncFrom_while_hosting (x : String) (st : SyncState)
    (h : st.isHosting = true) :
    requestSyncFrom x st = (false, st, []) := by
  unfold requestSyncFrom
  simp [h]

theorem requestSyncFrom_while_hosting_witness :
    ((startBroadcast initialSyncState).1.isHosting = true) ∧
    requestSyncFrom "192.168.1.50" (startBroadcast initialSyncState).1 =
      (false, (startBroadcast initialSyncState).1, []) :=
  ⟨by decide, requestSyncFrom_while_hosting _ _ (by decide)⟩

/-- Claim C4 (refuted by the code): `saveMachine` with an image blob on a
fresh cell stores the image row with `machineId = null` (no back-reference
to the new device) and stores/returns the device with `imageId = null`
(no pointer to the new image row): the source reads the `imageId`
variable before the image insert's success callback has assigned it. -/
theorem saveMachine_imageId_left_null :
    (saveMachine 1 0 0 (some "breaker") (some "ok") (some "photo-bytes") 10
      dbEmpty).1.imageId = none ∧
    ((saveMachine 1 0 0 (some "breaker") (some "ok") (some "photo-bytes") 10
      dbEmpty).2.images.map (fun img => img.machineId)) = [none] ∧
    ((saveMachine 1 0 0 (some "breaker") (some "ok") (some "photo-bytes") 10
      dbEmpty).2.machines.map (fun m => m.imageId)) = [none] := by
  decide

/-- Claim C6: starting from a store where the trimmed name is still free,
`addSite(n1)` succeeds; a second call whose name trims to the same string
fails with `DuplicateName`, and a second call whose trimmed name differs
(and is itself free) succeeds. -/
theorem addSubstation_duplicate_name (n1 n2 : String) (t1 t2 : Nat) (db : DB)
    (h1 : ∀ s ∈ db.substations, s.name ≠ jsTrim n1) :
    ∃ s1 db1, addSubstation n1 t1 db = .ok (s1, db1) ∧
      (jsTrim n2 = jsTrim n1 →
        addSubstation n2 t2 db1 = .error .duplicateName) ∧
      ((jsTrim n2 ≠ jsTrim n1 ∧ ∀ s ∈ db.substations, s.name ≠ jsTrim n2) →
        ∃ s2 db2, addSubstation n2 t2 db1 = .ok (s2, db2)) := by
  have hany1 : db.substations.any (fun s => s.name = jsTrim n1) = false := by
    rw [List.any_eq_false]
    intro s hs
    simpa using h1 s hs
  have hstep : addSubstation n1 t1 db = .ok ({ id := db.nextSubstationId, name := jsTrim n1, createdAt := t1 }, { db with substations := db.substations ++ [{ id := db.nextSubstationId, name := jsTrim n1, createdAt := t1 }], nextSubstationId := db.nextSubstationId + 1 }) := by
    unfold addSubstation
    simp [hany1]
  refine ⟨_, _, hstep, ?_, ?_⟩
  · intro heq
    have hany2 : ((db.substations ++
        [({ id := db.nextSubstationId, name := jsTrim n1, createdAt := t1 } : Substation)]).any
        (fun s => s.name = jsTrim n2)) = true := by
      rw [List.any_eq_true]
      exact ⟨_, List.mem_append_right _ (List.mem_singleton.2 rfl), by simp [heq]⟩
    unfold addSubstation
    simp [hany2]
  · rintro ⟨hne, hfree⟩
    have hany2 : ((db.substations ++
        [({ id := db.nextSubstationId, name := jsTrim n1, createdAt := t1 } : Substation)]).any
        (fun s => s.name = jsTrim n2)) = false := by
      rw [List.any_eq_false]
      intro s hs
      rcases List.mem_append.1 hs with hs | hs
      · simpa using hfree s hs
      · simp only [List.mem_singleton] at hs
        subst hs
        simpa using fun hcontra => hne hcontra.symm
    apply Exists.intro
    apply Exists.intro
    unfold addSubstation
    rw [if_neg (by simp [hany2])]

theorem addSubstation_duplicate_name_witness :
    (∀ s ∈ dbEmpty.substations, s.name ≠ jsTrim " East ") ∧
    (∃ s1 db1, addSubstation " East " 1 dbEmpty = .ok (s1, db1) ∧
      (jsTrim "East" = jsTrim " East " →
        addSubstation "East" 2 db1 = .error .duplicateName) ∧
      ((jsTrim "East" ≠ jsTrim " East " ∧
        ∀ s ∈ dbEmpty.substations, s.name ≠ jsTrim "East") →
        ∃ s2 db2, addSubstation "East" 2 db1 = .ok (s2, db2))) :=
  ⟨by decide, addSubstation_duplicate_name " East " "East" 1 2 dbEmpty (by decide)⟩

theorem flatMap_send_eq_filter_map (data : Snapshot) (l : List SyncConnection)
    (hcoh : ∀ c ∈ l, c.connected = true ↔ c.dataChannel = some ChannelState.opened) :
    l.flatMap (fun c => if c.connected then (c.send (WireMsg.syncData data)).2 else []) =
      (l.filter (fun c => c.dataChannel = some ChannelState.opened)).map
        (fun c => OutMsg.channelSend c.peerId (WireMsg.syncData data)) := by
  induction l with
  | nil => rfl
  | cons c rest ih =>
      have hc := hcoh c (by simp)
      have hrest := fun d hd => hcoh d (List.mem_cons_of_mem _ hd)
      by_cases hop : c.dataChannel = some ChannelState.opened
      · have hconn : c.connected = true := hc.2 hop
        have hsend : (c.send (WireMsg.syncData data)).2 =
            [OutMsg.channelSend c.peerId (WireMsg.syncData data)] := by
          simp [SyncConnection.send, hop]
        simp [List.flatMap_cons, List.filter_cons, hop, hconn, hsend, ih hrest]
      · have hconn : c.connected = false := by
          cases hcb : c.connected
          · rfl
          · exact absurd (hc.1 hcb) hop
        simp [List.flatMap_cons, List.filter_cons, hop, hconn, ih hrest]

/-- Claim C8: `triggerSync` (sync.js `performSync`) returns false and
sends nothing when neither hosting nor connected; otherwise it succeeds,
exporting one snapshot and pushing exactly that snapshot to the broadcast
bus (when hosting) and to every session whose channel is `OPEN`. -/
theorem performSync_pushes_snapshot_once (db : DB) (now : Nat) (st : SyncState)
    (hcoh : ∀ c ∈ st.syncClients,
      c.connected = true ↔ c.dataChannel = some ChannelState.opened)
    (hmgr : st.isHosting = true → st.localSyncManager = true) :
    (st.isHosting = false ∧ st.isConnected = false →
      performSync db now st = (false, [])) ∧
    (st.isHosting = true ∨ st.isConnected = true →
      performSync db now st =
        (true,
         (if st.isHosting then [OutMsg.busBroadcast (exportAllData now db)] else []) ++
         (st.syncClients.filter
             (fun c => c.dataChannel = some ChannelState.opened)).map
           (fun c => OutMsg.channelSend c.peerId
             (WireMsg.syncData (exportAllData now db))))) := by
  constructor
  · rintro ⟨h1, h2⟩
    unfold performSync
    simp [h1, h2]
  · intro hor
    have hcond : (!st.isConnected && !st.isHosting) = false := by
      rcases hor with h | h <;> simp [h]
    unfold performSync
    simp only [hcond, Bool.false_eq_true, if_false]
    rw [flatMap_send_eq_filter_map _ _ hcoh]
    cases hh : st.isHosting with
    | true => simp [hh, hmgr hh]
    | false => simp [hh]

/-- A hosting state with one open and one still-negotiating session. -/
def stC8 : SyncState :=
  { isHosting := true, isConnected := true,
    syncClients :=
      [{ peerId := "peer-a", isInitiator := true, connected := true,
         dataChannel := some ChannelState.opened },
       { peerId := "peer-b", isInitiator := true, connected := false,
         dataChannel := some ChannelState.connecting }],
    localSyncManager := true }

theorem performSync_pushes_snapshot_once_witness :
    (∀ c ∈ stC8.syncClients,
      c.connected = true ↔ c.dataChannel = some ChannelState.opened) ∧
    (stC8.isHosting = true → stC8.localSyncManager = true) ∧
    ((stC8.isHosting = false ∧ stC8.isConnected = false →
        performSync dbC2 4 stC8 = (false, [])) ∧
     (stC8.isHosting = true ∨ stC8.isConnected = true →
        performSync dbC2 4 stC8 =
          (true,
           (if stC8.isHosting then [OutMsg.busBroadcast (exportAllData 4 dbC2)]
            else []) ++
           (stC8.syncClients.filter
               (fun c => c.dataChannel = some ChannelState.opened)).map
             (fun c => OutMsg.channelSend c.peerId
               (WireMsg.syncData (exportAllData 4 dbC2)))))) :=
  ⟨by decide, by decide,
   performSync_pushes_snapshot_once dbC2 4 stC8 (by decide) (by decide)⟩

theorem map_id_of_mem {α : Type} (l : List α) (f : α → α) (h : ∀ a ∈ l, f a = a) :
    l.map f = l := by
  induction l with
  | nil => rfl
  | cons a rest ih => simp [h a (by simp), ih (fun b hb => h b (by simp [hb]))]

theorem saveMachine_fresh_cell (sid : Nat) (x y : Int) (n i img : Option String)
    (t : Nat) (db : DB) (hfresh : getMachineByPosition sid x y db = none) :
    (saveMachine sid x y n i img t db).1 =
      { id := db.nextMachineId, substationId := sid, positionX := x, positionY := y,
        name := n.getD "", info := i.getD "", imageId := none,
        createdAt := t, updatedAt := t } ∧
    (saveMachine sid x y n i img t db).2.machines =
      db.machines ++
        [{ id := db.nextMachineId, substationId := sid, positionX := x, positionY := y,
           name := n.getD "", info := i.getD "", imageId := none,
           createdAt := t, updatedAt := t }] ∧
    (saveMachine sid x y n i img t db).2.nextMachineId = db.nextMachineId + 1 := by
  cases img <;> simp [saveMachine, hfresh]

theorem saveMachine_existing_cell (sid : Nat) (x y : Int) (n i img : Option String)
    (t : Nat) (db : DB) (m : Machine)
    (hfound : getMachineByPosition sid x y db = some m) (hmem : m ∈ db.machines) :
    (saveMachine sid x y n i img t db).1 =
      { id := m.id, substationId := sid, positionX := x, positionY := y,
        name := n.getD "", info := i.getD "", imageId := none,
        createdAt := m.createdAt, updatedAt := t } ∧
    (saveMachine sid x y n i img t db).2.machines =
      db.machines.map (fun mm => if mm.id = m.id then
        { id := m.id, substationId := sid, positionX := x, positionY := y,
          name := n.getD "", info := i.getD "", imageId := none,
          createdAt := m.createdAt, updatedAt := t } else mm) := by
  have hany : db.machines.any (fun mm => mm.id = m.id) = true := by
    rw [List.any_eq_true]
    exact ⟨m, hmem, by simp⟩
  cases img <;> simp [saveMachine, hfound, putMachine, hany]

/-- Claim C3: two `saveMachine` calls on the same free grid cell leave one
device row at that cell; the second call returns the same id and
createdAt as the first (only mutable fields change) and a strictly later
updatedAt.  The store key invariant (every stored key is below the key
generator) and the strict advance of the wall clock between the two calls
are the ambient hypotheses. -/
theorem saveMachine_upsert_stable_identity (sid : Nat) (x y : Int)
    (n1 i1 img1 n2 i2 img2 : Option String) (t1 t2 : Nat) (db : DB)
    (hfresh : getMachineByPosition sid x y db = none)
    (hkeys : ∀ m ∈ db.machines, m.id < db.nextMachineId)
    (ht : t1 < t2) :
    (saveMachine sid x y n2 i2 img2 t2 (saveMachine sid x y n1 i1 img1 t1 db).2).1.id =
      (saveMachine sid x y n1 i1 img1 t1 db).1.id ∧
    (saveMachine sid x y n2 i2 img2 t2
        (saveMachine sid x y n1 i1 img1 t1 db).2).1.createdAt =
      (saveMachine sid x y n1 i1 img1 t1 db).1.createdAt ∧
    (saveMachine sid x y n1 i1 img1 t1 db).1.updatedAt <
      (saveMachine sid x y n2 i2 img2 t2
        (saveMachine sid x y n1 i1 img1 t1 db).2).1.updatedAt ∧
    (saveMachine sid x y n2 i2 img2 t2
        (saveMachine sid x y n1 i1 img1 t1 db).2).1.name = n2.getD "" ∧
    (saveMachine sid x y n2 i2 img2 t2
        (saveMachine sid x y n1 i1 img1 t1 db).2).1.info = i2.getD "" ∧
    (saveMachine sid x y n2 i2 img2 t2
        (saveMachine sid x y n1 i1 img1 t1 db).2).2.machines.filter
        (fun m => m.substationId = sid ∧ m.positionX = x ∧ m.positionY = y) =
      [(saveMachine sid x y n2 i2 img2 t2 (saveMachine sid x y n1 i1 img1 t1 db).2).1] := by
  obtain ⟨hA1, hA2, hA3⟩ := saveMachine_fresh_cell sid x y n1 i1 img1 t1 db hfresh
  have hnone : (db.machines.filter (fun m => m.substationId = sid)).find?
      (fun m => m.positionX = x ∧ m.positionY = y) = none := hfresh
  have hfound2 : getMachineByPosition sid x y (saveMachine sid x y n1 i1 img1 t1 db).2 =
      some { id := db.nextMachineId, substationId := sid, positionX := x, positionY := y,
             name := n1.getD "", info := i1.getD "", imageId := none,
             createdAt := t1, updatedAt := t1 } := by
    unfold getMachineByPosition getMachinesBySubstationId
    rw [hA2, List.filter_append, List.find?_append, hnone]
    simp
  have hmem1 : ({ id := db.nextMachineId, substationId := sid, positionX := x,
                  positionY := y, name := n1.getD "", info := i1.getD "",
                  imageId := none, createdAt := t1, updatedAt := t1 } : Machine) ∈
      (saveMachine sid x y n1 i1 img1 t1 db).2.machines := by
    rw [hA2]
    simp
  obtain ⟨hB1, hB2⟩ :=
    saveMachine_existing_cell sid x y n2 i2 img2 t2 _ _ hfound2 hmem1
  have hmach2 : (saveMachine sid x y n2 i2 img2 t2
      (saveMachine sid x y n1 i1 img1 t1 db).2).2.machines =
      db.machines ++
        [{ id := db.nextMachineId, substationId := sid, positionX := x, positionY := y,
           name := n2.getD "", info := i2.getD "", imageId := none,
           createdAt := t1, updatedAt := t2 }] := by
    rw [hB2, hA2, List.map_append]
    congr 1
    · apply map_id_of_mem
      intro m hm
      have hne : m.id ≠ db.nextMachineId := Nat.ne_of_lt (hkeys m hm)
      simp [hne]
    · simp
  have hnofit : ∀ m ∈ db.machines,
      ¬(m.substationId = sid ∧ m.positionX = x ∧ m.positionY = y) := by
    intro m hm hcell
    have hm2 : m ∈ db.machines.filter (fun mm => mm.substationId = sid) :=
      List.mem_filter.2 ⟨hm, by simp [hcell.1]⟩
    have hfind := List.find?_eq_none.1 hnone m hm2
    simp [hcell.2.1, hcell.2.2] at hfind
  have hleft : db.machines.filter
      (fun m => m.substationId = sid ∧ m.positionX = x ∧ m.positionY = y) = [] := by
    rw [List.filter_eq_nil_iff]
    intro m hm
    simpa using hnofit m hm
  refine ⟨?_, ?_, ?_, ?_, ?_, ?_⟩
  · rw [hB1, hA1]
  · rw [hB1, hA1]
  · rw [hB1, hA1]
    exact ht
  · rw [hB1]
  · rw [hB1]
  · rw [hmach2, List.filter_append, hleft, hB1]
    simp

/-- Claim C3 witness: the two calls on an empty store. -/
theorem saveMachine_upsert_stable_identity_witness :
    (getMachineByPosition 1 0 0 dbEmpty = none ∧
     (∀ m ∈ dbEmpty.machines, m.id < dbEmpty.nextMachineId) ∧ 5 < 9) ∧
    ((saveMachine 1 0 0 (some "b") (some "j") none 9
        (saveMachine 1 0 0 (some "a") (some "i") none 5 dbEmpty).2).1.id =
      (saveMachine 1 0 0 (some "a") (some "i") none 5 dbEmpty).1.id ∧
     (saveMachine 1 0 0 (some "b") (some "j") none 9
        (saveMachine 1 0 0 (some "a") (some "i") none 5 dbEmpty).2).1.createdAt =
      (saveMachine 1 0 0 (some "a") (some "i") none 5 dbEmpty).1.createdAt ∧
     (saveMachine 1 0 0 (some "a") (some "i") none 5 dbEmpty).1.updatedAt <
      (saveMachine 1 0 0 (some "b") (some "j") none 9
        (saveMachine 1 0 0 (some "a") (some "i") none 5 dbEmpty).2).1.updatedAt ∧
     (saveMachine 1 0 0 (some "b") (some "j") none 9
        (saveMachine 1 0 0 (some "a") (some "i") none 5 dbEmpty).2).1.name =
      (some "b").getD "" ∧
     (saveMachine 1 0 0 (some "b") (some "j") none 9
        (saveMachine 1 0 0 (some "a") (some "i") none 5 dbEmpty).2).1.info =
      (some "j").getD "" ∧
     (saveMachine 1 0 0 (some "b") (some "j") none 9
        (saveMachine 1 0 0 (some "a") (some "i") none 5 dbEmpty).2).2.machines.filter
        (fun m => m.substationId = 1 ∧ m.positionX = 0 ∧ m.positionY = 0) =
      [(saveMachine 1 0 0 (some "b") (some "j") none 9
          (saveMachine 1 0 0 (some "a") (some "i") none 5 dbEmpty).2).1]) :=
  ⟨⟨by decide, by decide, by decide⟩,
   saveMachine_upsert_stable_identity 1 0 0 (some "a") (some "i") none
     (some "b") (some "j") none 5 9 dbEmpty (by decide) (by decide) (by decide)⟩

theorem deleteMachine_fields (mid : Nat) (w : DB) :
    (deleteMachine mid w).machines = w.machines.filter (fun m => m.id ≠ mid) ∧
    (deleteMachine mid w).substations = w.substations ∧
    (deleteMachine mid w).syncRecords = w.syncRecords ∧
    ∀ img ∈ (deleteMachine mid w).images, img ∈ w.images := by
  rcases hf : w.machines.find? (fun m => m.id = mid) with _ | m
  · simp [deleteMachine, hf]
  · cases hi : m.imageId with
    | none => simp [deleteMachine, hf, hi]
    | some i =>
        refine ⟨?_, ?_, ?_, ?_⟩ <;> simp [deleteMachine, hf, hi]
        intro img hmem hne
        exact hmem

theorem find?_id_eq_of_nodup (l : List Machine) (m : Machine) (hm : m ∈ l)
    (hn : (l.map (fun mm => mm.id)).Nodup) :
    l.find? (fun mm => mm.id = m.id) = some m := by
  induction l with
  | nil => cases hm
  | cons a rest ih =>
      rw [List.map_cons] at hn
      have hn2 := List.nodup_cons.1 hn
      by_cases ha : a.id = m.id
      · have ham : a = m := by
          rcases List.mem_cons.1 hm with h | h
          · exact h.symm
          · exact absurd (by rw [ha]; exact List.mem_map_of_mem (fun mm => mm.id) h) hn2.1
        rw [List.find?_cons_of_pos _ (by simp [ha])]
        rw [ham]
      · have hmrest : m ∈ rest := by
          rcases List.mem_cons.1 hm with h | h
          · exact absurd (congrArg Machine.id h.symm) ha
          · exact h
        rw [List.find?_cons_of_neg _ (by simp [ha])]
        exact ih hmrest hn2.2

theorem deleteMachine_image_gone (w : DB) (m : Machine) (i : Nat)
    (hm : m ∈ w.machines) (hn : (w.machines.map (fun mm => mm.id)).Nodup)
    (hi : m.imageId = some i) :
    ∀ img ∈ (deleteMachine m.id w).images, img.id ≠ i := by
  intro img hmem
  have hf := find?_id_eq_of_nodup w.machines m hm hn
  simp only [deleteMachine, hf, hi] at hmem
  simp at hmem
  exact hmem.2

theorem foldDelete_machines_mem (todo : List Machine) : ∀ (w : DB) (mm : Machine),
    mm ∈ (todo.foldl (fun w m => deleteMachine m.id w) w).machines ↔
      mm ∈ w.machines ∧ ∀ t ∈ todo, mm.id ≠ t.id := by
  induction todo with
  | nil => intro w mm; simp
  | cons t0 rest ih =>
      intro w mm
      rw [List.foldl_cons, ih]
      rw [(deleteMachine_fields t0.id w).1]
      constructor
      · rintro ⟨hmem, hrest⟩
        have := List.mem_filter.1 hmem
        refine ⟨this.1, ?_⟩
        intro t htmem
        rcases List.mem_cons.1 htmem with h | h
        · subst h
          simpa using this.2
        · exact hrest t h
      · rintro ⟨hmem, hall⟩
        refine ⟨List.mem_filter.2 ⟨hmem, by simpa using hall t0 (by simp)⟩, ?_⟩
        intro t htmem
        exact hall t (List.mem_cons_of_mem _ htmem)

theorem foldDelete_images_mono (todo : List Machine) : ∀ (w : DB),
    ∀ img ∈ (todo.foldl (fun w m => deleteMachine m.id w) w).images, img ∈ w.images := by
  induction todo with
  | nil => intro w img h; exact h
  | cons t0 rest ih =>
      intro w img h
      rw [List.foldl_cons] at h
      exact (deleteMachine_fields t0.id w).2.2.2 img (ih (deleteMachine t0.id w) img h)

theorem foldDelete_substations (todo : List Machine) : ∀ (w : DB),
    (todo.foldl (fun w m => deleteMachine m.id w) w).substations = w.substations := by
  induction todo with
  | nil => intro w; rfl
  | cons t0 rest ih =>
      intro w
      rw [List.foldl_cons, ih, (deleteMachine_fields t0.id w).2.1]

theorem foldDelete_images_deleted (todo : List Machine) : ∀ (w : DB),
    (∀ t ∈ todo, t ∈ w.machines) →
    (w.machines.map (fun mm => mm.id)).Nodup →
    (todo.map (fun t => t.id)).Nodup →
    ∀ t ∈ todo, ∀ i, t.imageId = some i →
      ∀ img ∈ (todo.foldl (fun w m => deleteMachine m.id w) w).images, img.id ≠ i := by
  induction todo with
  | nil => intro w _ _ _ t ht; cases ht
  | cons t0 rest ih =>
      intro w hall hwids htids t ht i hi img himg
      rw [List.foldl_cons] at himg
      rw [List.map_cons] at htids
      have htids2 := List.nodup_cons.1 htids
      have hwids2 : ((deleteMachine t0.id w).machines.map (fun mm => mm.id)).Nodup := by
        rw [(deleteMachine_fields t0.id w).1]
        exact hwids.sublist ((List.filter_sublist w.machines).map (fun mm => mm.id))
      have hall2 : ∀ t ∈ rest, t ∈ (deleteMachine t0.id w).machines := by
        intro t2 ht2
        rw [(deleteMachine_fields t0.id w).1]
        refine List.mem_filter.2 ⟨hall t2 (List.mem_cons_of_mem _ ht2), ?_⟩
        have : t2.id ≠ t0.id := by
          intro hcontra
          exact htids2.1 (by rw [hcontra.symm]; exact List.mem_map_of_mem (fun t => t.id) ht2)
        simpa using this
      rcases List.mem_cons.1 ht with h | h
      · subst h
        have hgone := deleteMachine_image_gone w t i (hall t (by simp)) hwids hi
        exact hgone img (foldDelete_images_mono rest (deleteMachine t.id w) img himg)
      · exact ih (deleteMachine t0.id w) hall2 hwids2 htids2.2 t h i hi img himg

/-- Claim C5: `deleteSite` (db.js `deleteSubstation`) first deletes every
device of the site (each cascading to its referenced image) and then
removes the Site row: afterwards `listDevices(s)` is empty, no site row
with that id remains, and the image referenced by any deleted device is
gone.  The key-uniqueness invariant of the machines store is the ambient
hypothesis. -/
theorem deleteSubstation_cascades (sid : Nat) (db : DB)
    (hids : (db.machines.map (fun m => m.id)).Nodup) :
    getMachinesBySubstationId sid (deleteSubstation sid db) = [] ∧
    (∀ s ∈ (deleteSubstation sid db).substations, s.id ≠ sid) ∧
    (∀ m ∈ getMachinesBySubstationId sid db, ∀ i, m.imageId = some i →
      ∀ img ∈ (deleteSubstation sid db).images, img.id ≠ i) := by
  have htodo_mem : ∀ t ∈ getMachinesBySubstationId sid db, t ∈ db.machines :=
    fun t ht => (List.mem_filter.1 ht).1
  have htodo_ids : ((getMachinesBySubstationId sid db).map (fun t => t.id)).Nodup :=
    hids.sublist ((List.filter_sublist db.machines).map (fun t => t.id))
  refine ⟨?_, ?_, ?_⟩
  · rw [getMachinesBySubstationId, List.filter_eq_nil_iff]
    intro mm hmm
    have hmm2 : mm ∈ (deleteMachinesBySubstationId sid db).machines := hmm
    rw [deleteMachinesBySubstationId, foldDelete_machines_mem] at hmm2
    intro hsid
    have hcell : mm ∈ getMachinesBySubstationId sid db :=
      List.mem_filter.2 ⟨hmm2.1, hsid⟩
    exact hmm2.2 mm hcell rfl
  · intro s hs
    have : s ∈ (deleteMachinesBySubstationId sid db).substations.filter
        (fun s => s.id ≠ sid) := hs
    simpa using (List.mem_filter.1 this).2
  · intro m hm i hi img himg
    have himg2 : img ∈ (deleteMachinesBySubstationId sid db).images := himg
    rw [deleteMachinesBySubstationId] at himg2
    exact foldDelete_images_deleted (getMachinesBySubstationId sid db) db
      htodo_mem hids htodo_ids m hm i hi img himg2

/-- A store with one site, one device, and that device's image, used to
instantiate the cascade theorem. -/
def dbC5 : DB :=
  { substations := [{ id := 1, name := "West", createdAt := 1 }],
    machines := [{ id := 3, substationId := 1, positionX := 2, positionY := 4,
                   name := "fan", info := "", imageId := some 7,
                   createdAt := 2, updatedAt := 2 }],
    images := [{ id := 7, machineId := some 3, data := "img-bytes", timestamp := 2 }],
    syncRecords := [],
    nextSubstationId := 2, nextMachineId := 4, nextImageId := 8, nextSyncId := 1 }

theorem deleteSubstation_cascades_witness :
    (dbC5.machines.map (fun m => m.id)).Nodup ∧
    (getMachinesBySubstationId 1 (deleteSubstation 1 dbC5) = [] ∧
     (∀ s ∈ (deleteSubstation 1 dbC5).substations, s.id ≠ 1) ∧
     (∀ m ∈ getMachinesBySubstationId 1 dbC5, ∀ i, m.imageId = some i →
       ∀ img ∈ (deleteSubstation 1 dbC5).images, img.id ≠ i)) :=
  ⟨by decide, deleteSubstation_cascades 1 dbC5 (by decide)⟩

/-- A store holding a device whose `substationId` matches no existing
site (the store does not enforce that reference, and `importData` itself
leaves imported devices pointing at the ids of cleared sites). -/
def dbC1 : DB :=
  { substations := [{ id := 1, name := "South", createdAt := 1 }],
    machines := [{ id := 2, substationId := 99, positionX := 0, positionY := 0,
                   name := "orphan", info := "", imageId := none,
                   createdAt := 3, updatedAt := 3 }],
    images := [], syncRecords := [],
    nextSubstationId := 2, nextMachineId := 3, nextImageId := 1, nextSyncId := 1 }

/-- Claim C1 is false as universally stated: `exportAllData` only gathers
devices reachable through an existing site, so a round trip on `dbC1`
succeeds yet drops the device — `listDevices(99)` was nonempty before and
is empty (indeed the whole devices store is empty) afterwards. -/
theorem exportImport_roundtrip_counterexample :
    (getMachinesBySubstationId 99 dbC1).length = 1 ∧
    (importData (exportAllData 5 dbC1) dbC1).1 = .ok () ∧
    getMachinesBySubstationId 99 (importData (exportAllData 5 dbC1) dbC1).2 = [] ∧
    (importData (exportAllData 5 dbC1) dbC1).2.machines = [] :=
  ⟨by decide, by rfl, by decide, by decide⟩

theorem mem_filter_map_core (l : List Machine) (sid : Nat) (v : MachineCore) :
    v ∈ (l.filter (fun m => m.substationId = sid)).map Machine.core ↔
      v ∈ l.map Machine.core ∧ v.substationId = sid := by
  constructor
  · intro h
    rcases List.mem_map.1 h with ⟨m, hm, hv⟩
    rcases List.mem_filter.1 hm with ⟨hml, hsid⟩
    subst hv
    exact ⟨List.mem_map_of_mem _ hml, by simpa [Machine.core] using hsid⟩
  · rintro ⟨h, hsid⟩
    rcases List.mem_map.1 h with ⟨m, hm, hv⟩
    refine List.mem_map.2 ⟨m, List.mem_filter.2 ⟨hm, ?_⟩, hv⟩
    rw [← hv] at hsid
    simpa [Machine.core] using hsid

theorem mem_export_machines_core (db : DB) (now : Nat)
    (horph : ∀ m ∈ db.machines, ∃ s ∈ db.substations, s.id = m.substationId)
    (v : MachineCore) :
    v ∈ (exportAllData now db).machines.map Machine.core ↔
      v ∈ db.machines.map Machine.core := by
  have hExp : (exportAllData now db).machines =
      db.substations.flatMap
        (fun s => db.machines.filter (fun m => m.substationId = s.id)) := rfl
  constructor
  · intro h
    rcases List.mem_map.1 h with ⟨m, hm, hv⟩
    rw [hExp] at hm
    rcases List.mem_flatMap.1 hm with ⟨s, _, hmf⟩
    exact List.mem_map.2 ⟨m, (List.mem_filter.1 hmf).1, hv⟩
  · intro h
    rcases List.mem_map.1 h with ⟨m, hm, hv⟩
    rcases horph m hm with ⟨s, hs, hsid⟩
    refine List.mem_map.2 ⟨m, ?_, hv⟩
    rw [hExp]
    exact List.mem_flatMap.2 ⟨s, hs, List.mem_filter.2 ⟨hm, by simp [hsid]⟩⟩

/-- Claim C1 (amended): when every device references an existing site,
`importSnapshot(exportSnapshot())` leaves `listSites()` and
`listDevices(siteId)` set-equal, ignoring the reassigned row identifiers,
to their pre-export state. -/
theorem exportImport_roundtrip_preserves (db : DB) (now : Nat)
    (horph : ∀ m ∈ db.machines, ∃ s ∈ db.substations, s.id = m.substationId) :
    (∀ v, v ∈ (getAllSubstations
        (importData (exportAllData now db) db).2).map Substation.core ↔
      v ∈ (getAllSubstations db).map Substation.core) ∧
    (∀ sid v, v ∈ (getMachinesBySubstationId sid
        (importData (exportAllData now db) db).2).map Machine.core ↔
      v ∈ (getMachinesBySubstationId sid db).map Machine.core) := by
  cases h : importSubstations (exportAllData now db).substations (clearDataStores db) with
  | error e =>
      have heq : (importData (exportAllData now db) db).2 = db := by
        unfold importData
        rw [h]
      rw [heq]
      exact ⟨fun v => Iff.rfl, fun sid v => Iff.rfl⟩
  | ok w1 =>
      have himp : (importData (exportAllData now db) db).2 =
          importMachines (exportAllData now db).machines w1 := by
        unfold importData
        rw [h]
      obtain ⟨hs1, hs2, hs3, hs4, hs5⟩ := importSubstations_ok _ _ _ h
      obtain ⟨hm1, hm2, hm3, hm4⟩ := importMachines_spec (exportAllData now db).machines w1
      have hsites : (getAllSubstations
          (importData (exportAllData now db) db).2).map Substation.core =
          (getAllSubstations db).map Substation.core := by
        rw [getAllSubstations, himp, hm1, hs1]
        simp [clearDataStores, assignSubIds_map_core, exportAllData, getAllSubstations]
      have hmachfinal : ((importData (exportAllData now db) db).2.machines).map
          Machine.core = ((exportAllData now db).machines).map Machine.core := by
        rw [himp, hm2, hs2]
        simp [clearDataStores, assignMachineIds_map_core, hs5]
      refine ⟨fun v => by rw [hsites], fun sid v => ?_⟩
      simp only [getMachinesBySubstationId]
      rw [mem_filter_map_core, mem_filter_map_core, hmachfinal]
      rw [mem_export_machines_core db now horph v]

/-- A well-formed store (its one device points at its one site) for the
round-trip theorem. -/
def dbC1W : DB :=
  { substations := [{ id := 1, name := "Main", createdAt := 1 }],
    machines := [{ id := 1, substationId := 1, positionX := 0, positionY := 0,
                   name := "pump", info := "d", imageId := none,
                   createdAt := 2, updatedAt := 2 }],
    images := [], syncRecords := [],
    nextSubstationId := 2, nextMachineId := 2, nextImageId := 1, nextSyncId := 1 }

theorem exportImport_roundtrip_preserves_witness :
    (∀ m ∈ dbC1W.machines, ∃ s ∈ dbC1W.substations, s.id = m.substationId) ∧
    ((∀ v, v ∈ (getAllSubstations
        (importData (exportAllData 9 dbC1W) dbC1W).2).map Substation.core ↔
      v ∈ (getAllSubstations dbC1W).map Substation.core) ∧
     (∀ sid v, v ∈ (getMachinesBySubstationId sid
        (importData (exportAllData 9 dbC1W) dbC1W).2).map Machine.core ↔
      v ∈ (getMachinesBySubstationId sid dbC1W).map Machine.core)) :=
  ⟨by decide, exportImport_roundtrip_preserves dbC1W 9 (by decide)⟩

end SubstationMonitor
